import Mathlib

/-!
Shallow embedding of the Conway's-Game-of-Life variant in `src/app.js`
(`Cell`, `Board` and their prototype methods), together with theorems
checking the specification's claims against it.

Modelling conventions:
* JS strings (the `'#RRGGBB'` colors) are lists of characters; the JS
  `substr(start, len)` is `jsSubstr`.
* The JS number `maturity` is modelled as a rational; the literal `0.1`
  is `1/10`.  (Claims whose truth depends on IEEE-754 rounding of these
  numbers are out of scope of this embedding.)
* The mutable `cells[x][y]` array of the board is a total function
  `Nat → Nat → Cell` together with the `width`/`height` bounds; an array
  access that JS would perform on an out-of-range index (yielding
  `undefined` and then throwing) is modelled by the `Option`-valued
  accessors (`Board.cellAt`, `Board.clickCell`).
* The two mutating passes of `Board.prototype.update` are modelled as
  left folds over the cell coordinates in source loop order (outer `x`,
  inner `y`), threading the grid state exactly as the in-place mutation
  does — including the side effect of `getLivingNeighbors`, which
  recolors the current cell when it is dead with three living neighbors.
-/

set_option maxHeartbeats 1000000

namespace ConwayLife

/-- JS strings are modelled as lists of characters. -/
abbrev JsStr := List Char

/-- JS `s.substr(start, len)` (non-negative arguments): the chunk of `s`
of length at most `len` starting at index `start`. -/
def jsSubstr (s : JsStr) (start len : Nat) : JsStr :=
  (s.drop start).take len

/-- The default cell color `'#000000'` (app.js line 47). -/
def defaultColor : JsStr := ['#', '0', '0', '0', '0', '0', '0']

/-- The `Cell` object (app.js lines 42-48): position, alive status,
maturity and color.  The rendering-only `draw` method is not modelled. -/
structure Cell where
  x : Nat
  y : Nat
  isAlive : Bool
  maturity : ℚ
  color : JsStr
deriving DecidableEq

/-- The `Cell` constructor `new Cell(x, y, color)`: dead, maturity `0.1`,
and `color || '#000000'` (a missing color argument falls back to the
default). -/
def Cell.make (x y : Nat) (color : Option JsStr) : Cell :=
  { x := x, y := y, isAlive := false, maturity := 1/10
  , color := color.getD defaultColor }

/-- `Cell.prototype.kill` (app.js lines 122-131): set alive status to
false and reset the maturity value.  The `draw` call is rendering only. -/
def Cell.kill (c : Cell) : Cell :=
  { c with isAlive := false, maturity := 1/10 }

/-- `Cell.prototype.toggle` (app.js lines 100-117), with the color read
from `colorPalette.getColor()` passed explicitly as `color`. -/
def Cell.toggle (c : Cell) (color : JsStr) : Cell :=
  if c.isAlive then
    (if c.color = color then c.kill else { c with color := color })
  else
    { c with isAlive := true, color := color }

/-- The board's 2D cell collection `this.cells`, addressed as
`cells x y` for `cells[x][y]`. -/
abbrev Grid := Nat → Nat → Cell

/-- In-place assignment `cells[x][y] = c`. -/
def setGrid (g : Grid) (x y : Nat) (c : Cell) : Grid :=
  fun a b => if a = x ∧ b = y then c else g a b

/-- The `Board` object (app.js lines 141-166): dimensions, the current
cells, and the staging `next` buffer. -/
structure Board where
  width : Nat
  height : Nat
  cells : Grid
  next : Nat → Nat → Bool

/-- The `Board` constructor `new Board(width, height)`: every cell is a
fresh dead `new Cell(x, y)` and every staging entry is `false`.  The
canvas sizing is rendering only. -/
def Board.make (width height : Nat) : Board :=
  { width := width, height := height
  , cells := fun x y => Cell.make x y none
  , next := fun _ _ => false }

/-- The up-to-8 neighbor positions examined by
`Board.prototype.getLivingNeighbors` (app.js lines 303-365), with the
source's boundary guards, in the source's order: left, top-left, top,
top-right, right, bottom-right, bottom, bottom-left. -/
def neighborPositions (width height x y : Nat) : List (Nat × Nat) :=
  (if x ≠ 0 then [(x - 1, y)] else []) ++
  (if x ≠ 0 ∧ y ≠ 0 then [(x - 1, y - 1)] else []) ++
  (if y ≠ 0 then [(x, y - 1)] else []) ++
  (if x ≠ width - 1 ∧ y ≠ 0 then [(x + 1, y - 1)] else []) ++
  (if x ≠ width - 1 then [(x + 1, y)] else []) ++
  (if x ≠ width - 1 ∧ y ≠ height - 1 then [(x + 1, y + 1)] else []) ++
  (if y ≠ height - 1 then [(x, y + 1)] else []) ++
  (if x ≠ 0 ∧ y ≠ height - 1 then [(x - 1, y + 1)] else [])

/-- The `aliveNeighbors` array built by `getLivingNeighbors`: the cells
at the guarded neighbor positions that are alive, in traversal order. -/
def aliveNeighborsIn (width height : Nat) (g : Grid) (x y : Nat) : List Cell :=
  ((neighborPositions width height x y).map (fun p => g p.1 p.2)).filter
    (fun c => c.isAlive)

/-- The inherited color built by the loop at app.js lines 376-382:
`'#'` followed, for the i-th alive neighbor, by
`aliveNeighbors[i].color.substr(i*2+1, 2)`. -/
def inheritColor (an : List Cell) : JsStr :=
  '#' :: (an.enum.map (fun ic => jsSubstr ic.2.color (ic.1 * 2 + 1) 2)).flatten

/-- `Board.prototype.getLivingNeighbors` (app.js lines 279-387) as a
function of the grid: returns the count of living neighbors together
with the grid after the method's side effect (when the current cell is
dead and has exactly 3 living neighbors, its color is overwritten with
the inherited color). -/
def getLivingNeighborsFx (width height : Nat) (g : Grid) (x y : Nat) :
    Nat × Grid :=
  ((aliveNeighborsIn width height g x y).length,
   if (g x y).isAlive = false ∧ (aliveNeighborsIn width height g x y).length = 3
   then
     setGrid g x y
       { g x y with color := inheritColor (aliveNeighborsIn width height g x y) }
   else g)

/-- State threaded through the first pass of `Board.prototype.update`:
the staging `next` buffer and the (possibly recolored) cells. -/
@[ext]
structure P1State where
  next : Nat → Nat → Bool
  cells : Grid

/-- The board coordinates in the loop order of `update`: outer loop over
`x`, inner loop over `y`. -/
def boardCoords (width height : Nat) : List (Nat × Nat) :=
  (List.range width).flatMap (fun x => (List.range height).map (fun y => (x, y)))

/-- In-place assignment `next[x][y] = v`. -/
def setNext (n : Nat → Nat → Bool) (x y : Nat) (v : Bool) :
    Nat → Nat → Bool :=
  fun a b => if a = x ∧ b = y then v else n a b

/-- One iteration of the first pass of `update` (app.js lines 233-239):
`next[x][y] = cells[x][y].isAlive && getLivingNeighbors(x,y) === 2 ||
getLivingNeighbors(x,y) === 3` — by JS precedence
`(isAlive && n === 2) || n === 3`.  The two `getLivingNeighbors` calls
return the same count, and at most one of them performs a side effect,
so they are modelled as a single effectful call. -/
def pass1Step (width height : Nat) (s : P1State) (p : Nat × Nat) : P1State :=
  { next := setNext s.next p.1 p.2
      (((s.cells p.1 p.2).isAlive &&
          (getLivingNeighborsFx width height s.cells p.1 p.2).1 == 2) ||
        (getLivingNeighborsFx width height s.cells p.1 p.2).1 == 3)
  , cells := (getLivingNeighborsFx width height s.cells p.1 p.2).2 }

/-- The first pass of `update`, folded over all cells in loop order,
starting from the board's staging buffer and current cells. -/
def pass1 (b : Board) : P1State :=
  (boardCoords b.width b.height).foldl (pass1Step b.width b.height)
    { next := b.next, cells := b.cells }

/-- One cell's transition in the second pass of `update` (app.js lines
243-268): surviving cells gain `0.1` maturity when below `1`, dying
cells are killed, born cells just get `isAlive = true`.  Branches that
mutate nothing return the cell unchanged. -/
def pass2Cell (cell : Cell) (aliveNextGen : Bool) : Cell :=
  if cell.isAlive && aliveNextGen then
    (if cell.maturity < 1 then { cell with maturity := cell.maturity + 1/10 }
     else cell)
  else if cell.isAlive && !aliveNextGen then cell.kill
  else if !cell.isAlive && aliveNextGen then { cell with isAlive := true }
  else cell

/-- One iteration of the second pass of `update`: write the transitioned
cell back at its position. -/
def pass2Step (n : Nat → Nat → Bool) (g : Grid) (p : Nat × Nat) : Grid :=
  setGrid g p.1 p.2 (pass2Cell (g p.1 p.2) (n p.1 p.2))

/-- `Board.prototype.update` (app.js lines 230-269): the first pass
fills the staging buffer (with the recoloring side effect), the second
pass applies the staged decisions to the cells. -/
def Board.update (b : Board) : Board :=
  { b with
    cells := (boardCoords b.width b.height).foldl (pass2Step (pass1 b).next)
      (pass1 b).cells
  , next := (pass1 b).next }

/-- `Board.prototype.clear` (app.js lines 172-179): kill every in-range
cell.  `kill` touches only the cell itself, so the loop is modelled
pointwise. -/
def Board.clear (b : Board) : Board :=
  { b with
    cells := fun x y =>
      if x < b.width ∧ y < b.height then (b.cells x y).kill else b.cells x y }

/-- Reading `this.cells[x][y]`: JS yields the cell for in-range indices
and `undefined` (leading to a thrown `TypeError` on member access)
otherwise, modelled as `Option`. -/
def Board.cellAt (b : Board) (x y : Nat) : Option Cell :=
  if x < b.width ∧ y < b.height then some (b.cells x y) else none

/-- `Board.prototype.clickCell` (app.js lines 397-399):
`this.cells[x][y].toggle()`.  There is no bounds check in the source;
for an out-of-range index the member access on `undefined` throws before
any mutation, modelled as `none`.  Coordinates are integers (the click
handler can produce negative values). -/
def Board.clickCell (b : Board) (x y : Int) (color : JsStr) : Option Board :=
  if 0 ≤ x ∧ x < (b.width : Int) ∧ 0 ≤ y ∧ y < (b.height : Int) then
    some { b with
      cells := setGrid b.cells x.toNat y.toNat
        ((b.cells x.toNat y.toNat).toggle color) }
  else none

/-! ### Pointwise descriptions of the two passes

The folds above thread the mutated grid; the following definitions give
the same quantities computed against the pre-update board, and the
lemmas below prove the folds equal to them. -/

/-- The alive neighbors of `(x, y)` read off the pre-update board. -/
def aliveNeighborsOf (b : Board) (x y : Nat) : List Cell :=
  aliveNeighborsIn b.width b.height b.cells x y

/-- The living-neighbor count of `(x, y)` on the pre-update board. -/
def countLiving (b : Board) (x y : Nat) : Nat :=
  (aliveNeighborsOf b x y).length

/-- The staged next-generation status of `(x, y)`, computed against the
pre-update board. -/
def nextVal (b : Board) (x y : Nat) : Bool :=
  ((b.cells x y).isAlive && countLiving b x y == 2) || countLiving b x y == 3

/-- The cell at `(x, y)` after the first pass: recolored when dead with
exactly 3 living neighbors, unchanged otherwise. -/
def pass1CellSpec (b : Board) (x y : Nat) : Cell :=
  if (b.cells x y).isAlive = false ∧ countLiving b x y = 3 then
    { b.cells x y with color := inheritColor (aliveNeighborsOf b x y) }
  else b.cells x y

/-- Bounds-checked collection of the cells at a list of positions: fails
if any access is out of range. -/
def collectCells (b : Board) : List (Nat × Nat) → Option (List Cell)
  | [] => some []
  | p :: ps =>
    match b.cellAt p.1 p.2, collectCells b ps with
    | some c, some cs => some (c :: cs)
    | _, _ => none

/-- The living-neighbor count computed through the bounds-checked
accessor: `none` exactly when some neighbor access would be out of
range. -/
def countLivingChecked (b : Board) (x y : Nat) : Option Nat :=
  (collectCells b (neighborPositions b.width b.height x y)).map
    (fun cs => (cs.filter (fun c => c.isAlive)).length)

/-- Modelled from the spec: the standard Game of Life rule as stated in
the specification — an alive cell survives iff its count is 2 or 3, a
dead cell is born iff its count is exactly 3.  Used only to compare the
source's staged decision against the spec's words. -/
def lifeRuleSpec (alive : Bool) (n : Nat) : Bool :=
  if alive then decide (n = 2 ∨ n = 3) else decide (n = 3)

/-! ### Proof scaffolding -/

/-- Proof scaffolding: the cell grid after the first pass has processed
the coordinates in `done`. -/
def p1Cells (b : Board) (done : List (Nat × Nat)) : Grid :=
  fun x y => if (x, y) ∈ done then pass1CellSpec b x y else b.cells x y

/-- Proof scaffolding: the staging buffer after the first pass has
processed the coordinates in `done`. -/
def p1Next (b : Board) (done : List (Nat × Nat)) : Nat → Nat → Bool :=
  fun x y => if (x, y) ∈ done then nextVal b x y else b.next x y

/-- Proof scaffolding: the cell grid after the second pass, started on
grid `g` with staging buffer `n`, has processed the coordinates in
`done`. -/
def p2Cells (g : Grid) (n : Nat → Nat → Bool) (done : List (Nat × Nat)) :
    Grid :=
  fun x y => if (x, y) ∈ done then pass2Cell (g x y) (n x y) else g x y

/-- The living-neighbor count as a function of the alive statuses only. -/
def countAliveB (width height : Nat) (a : Nat → Nat → Bool) (x y : Nat) :
    Nat :=
  ((neighborPositions width height x y).filter (fun p => a p.1 p.2)).length

/-- The staged decision as a function of the alive statuses only. -/
def boolStep (width height : Nat) (a : Nat → Nat → Bool) (x y : Nat) : Bool :=
  (a x y && countAliveB width height a x y == 2) ||
    countAliveB width height a x y == 3

/-- The boards reachable from a freshly constructed board by the
mutating operations of the source: `update`, `clear`, a click-toggle on
some cell, and a direct `kill` of some cell. -/
inductive Reachable : Board → Prop
  | init (width height : Nat) : Reachable (Board.make width height)
  | update {b : Board} : Reachable b → Reachable b.update
  | clear {b : Board} : Reachable b → Reachable b.clear
  | click {b : Board} (x y : Int) (color : JsStr) {c : Board} :
      Reachable b → b.clickCell x y color = some c → Reachable c
  | killAt {b : Board} (x y : Nat) : Reachable b →
      Reachable { b with cells := setGrid b.cells x y ((b.cells x y).kill) }

/-- The horizontal blinker cells of the spec's concrete scenario. -/
def blinkerH : List (Nat × Nat) := [(1, 2), (2, 2), (3, 2)]

/-- The vertical blinker cells of the spec's concrete scenario. -/
def blinkerV : List (Nat × Nat) := [(2, 1), (2, 2), (2, 3)]

/-- Alive map of the horizontal blinker. -/
def blinkerHMap (x y : Nat) : Bool := decide ((x, y) ∈ blinkerH)

/-- Alive map of the vertical blinker. -/
def blinkerVMap (x y : Nat) : Bool := decide ((x, y) ∈ blinkerV)

/-- A concrete 5×5 board seeded with the horizontal blinker. -/
def blinkerBoard : Board :=
  { width := 5, height := 5
  , cells := fun x y =>
      { x := x, y := y, isAlive := blinkerHMap x y, maturity := 1/10
      , color := defaultColor }
  , next := fun _ _ => false }

/-- A concrete 2×2 board: three alive corners with distinct colors, the
fourth cell dead with the default color.  During the first pass of
`update` the dead corner `(1, 1)` has exactly 3 living neighbors and is
recolored in place. -/
def cornerBoard : Board :=
  { width := 2, height := 2
  , cells := fun x y =>
      if x = 0 ∧ y = 0 then
        { x := 0, y := 0, isAlive := true, maturity := 1/10
        , color := ['#', '1', '2', '3', '4', '5', '6'] }
      else if x = 0 ∧ y = 1 then
        { x := 0, y := 1, isAlive := true, maturity := 1/10
        , color := ['#', 'a', 'b', 'c', 'd', 'e', 'f'] }
      else if x = 1 ∧ y = 0 then
        { x := 1, y := 0, isAlive := true, maturity := 1/10
        , color := ['#', 'u', 'v', 'w', 'w', 'z', 'z'] }
      else
        { x := x, y := y, isAlive := false, maturity := 1/10
        , color := defaultColor }
  , next := fun _ _ => false }

/-! ### Helper lemmas -/

/-- Membership in a guarded singleton list. -/
lemma mem_ifSingleton {α : Type} {c : Prop} [Decidable c] {v p : α} :
    (p ∈ if c then [v] else ([] : List α)) ↔ c ∧ p = v := by
  by_cases h : c <;> simp [h]

/-- Overwriting the color twice is the same as overwriting it once. -/
lemma setColor_setColor (c : Cell) (s t : JsStr) :
    ({ { c with color := s } with color := t } : Cell) = { c with color := t } := by
  cases c; rfl

lemma pass1CellSpec_isAlive (b : Board) (x y : Nat) :
    (pass1CellSpec b x y).isAlive = (b.cells x y).isAlive := by
  unfold pass1CellSpec; split <;> rfl

lemma pass1CellSpec_maturity (b : Board) (x y : Nat) :
    (pass1CellSpec b x y).maturity = (b.cells x y).maturity := by
  unfold pass1CellSpec; split <;> rfl

lemma pass1CellSpec_of_alive (b : Board) (x y : Nat)
    (h : (b.cells x y).isAlive = true) :
    pass1CellSpec b x y = b.cells x y := by
  simp [pass1CellSpec, h]

lemma pass1CellSpec_of_not3 (b : Board) (x y : Nat)
    (h : ¬((b.cells x y).isAlive = false ∧ countLiving b x y = 3)) :
    pass1CellSpec b x y = b.cells x y := by
  simp only [pass1CellSpec, if_neg h]

lemma mem_boardCoords {width height x y : Nat} :
    (x, y) ∈ boardCoords width height ↔ x < width ∧ y < height := by
  simp [boardCoords, List.mem_flatMap, List.mem_range, Prod.ext_iff]

lemma boardCoords_nodup (width height : Nat) :
    (boardCoords width height).Nodup := by
  rw [boardCoords, List.nodup_flatMap]
  constructor
  · intro a _
    exact (List.nodup_range height).map (fun c d h => by simpa using h)
  · refine (List.pairwise_lt_range width).imp ?_
    intro a b hab p hpa hpb
    simp only [List.mem_map, List.mem_range] at hpa hpb
    obtain ⟨ya, -, rfl⟩ := hpa
    obtain ⟨yb, -, h2⟩ := hpb
    injection h2 with h3 h4
    omega

lemma neighborPositions_bounds {width height x y : Nat}
    (hx : x < width) (hy : y < height) :
    ∀ p ∈ neighborPositions width height x y, p.1 < width ∧ p.2 < height := by
  intro p hp
  simp only [neighborPositions, List.mem_append, mem_ifSingleton] at hp
  rcases hp with ((((((h | h) | h) | h) | h) | h) | h) | h <;>
    · obtain ⟨hc, rfl⟩ := h
      exact ⟨by omega, by omega⟩

lemma neighborPositions_length_le (width height x y : Nat) :
    (neighborPositions width height x y).length ≤ 8 := by
  unfold neighborPositions
  simp only [List.length_append, apply_ite List.length, List.length_singleton,
    List.length_nil]
  split_ifs <;> omega

/-- Two grids that agree on alive statuses, and agree entirely on alive
cells, produce the same alive-neighbor lists. -/
lemma filter_alive_congr (g1 g2 : Grid) (ps : List (Nat × Nat))
    (h : ∀ p ∈ ps, (g1 p.1 p.2).isAlive = (g2 p.1 p.2).isAlive ∧
        ((g2 p.1 p.2).isAlive = true → g1 p.1 p.2 = g2 p.1 p.2)) :
    (ps.map (fun p => g1 p.1 p.2)).filter (fun c => c.isAlive) =
      (ps.map (fun p => g2 p.1 p.2)).filter (fun c => c.isAlive) := by
  induction ps with
  | nil => rfl
  | cons p ps ih =>
    have hp := h p (List.mem_cons_self p ps)
    have hrest := ih (fun q hq => h q (List.mem_cons_of_mem _ hq))
    cases hA : (g2 p.1 p.2).isAlive with
    | false => simp [List.filter_cons, hp.1, hA, hrest]
    | true => simp [List.filter_cons, hp.2 hA, hA, hrest]

lemma p1Cells_isAlive (b : Board) (done : List (Nat × Nat)) (x y : Nat) :
    (p1Cells b done x y).isAlive = (b.cells x y).isAlive := by
  unfold p1Cells; split
  · exact pass1CellSpec_isAlive b x y
  · rfl

lemma p1Cells_maturity (b : Board) (done : List (Nat × Nat)) (x y : Nat) :
    (p1Cells b done x y).maturity = (b.cells x y).maturity := by
  unfold p1Cells; split
  · exact pass1CellSpec_maturity b x y
  · rfl

/-- The recoloring performed while the first pass runs never changes the
alive-neighbor lists: they match the pre-update board's. -/
lemma p1Cells_aliveNeighbors (b : Board) (done : List (Nat × Nat)) (x y : Nat) :
    aliveNeighborsIn b.width b.height (p1Cells b done) x y =
      aliveNeighborsOf b x y := by
  unfold aliveNeighborsOf aliveNeighborsIn
  apply filter_alive_congr
  intro p _
  refine ⟨p1Cells_isAlive b done p.1 p.2, fun hA => ?_⟩
  unfold p1Cells
  split
  · exact pass1CellSpec_of_alive b p.1 p.2 hA
  · rfl

lemma glnFx_fst (width height : Nat) (g : Grid) (x y : Nat) :
    (getLivingNeighborsFx width height g x y).1 =
      (aliveNeighborsIn width height g x y).length := rfl

lemma glnFx_snd (width height : Nat) (g : Grid) (x y : Nat) :
    (getLivingNeighborsFx width height g x y).2 =
      if (g x y).isAlive = false ∧ (aliveNeighborsIn width height g x y).length = 3
      then
        setGrid g x y
          { g x y with color := inheritColor (aliveNeighborsIn width height g x y) }
      else g := rfl

lemma pass1Step_next_spec (b : Board) (done : List (Nat × Nat)) (q : Nat × Nat) :
    (pass1Step b.width b.height ⟨p1Next b done, p1Cells b done⟩ q).next =
      p1Next b (done ++ [q]) := by
  have han : aliveNeighborsIn b.width b.height (p1Cells b done) q.1 q.2 =
      aliveNeighborsOf b q.1 q.2 := p1Cells_aliveNeighbors b done q.1 q.2
  have hAl : (p1Cells b done q.1 q.2).isAlive = (b.cells q.1 q.2).isAlive :=
    p1Cells_isAlive b done q.1 q.2
  funext a c
  show setNext (p1Next b done) q.1 q.2
      (((p1Cells b done q.1 q.2).isAlive &&
          (getLivingNeighborsFx b.width b.height (p1Cells b done) q.1 q.2).1
            == 2) ||
        (getLivingNeighborsFx b.width b.height (p1Cells b done) q.1 q.2).1
          == 3) a c =
    p1Next b (done ++ [q]) a c
  rw [glnFx_fst, han, hAl]
  unfold setNext p1Next
  by_cases hq : a = q.1 ∧ c = q.2
  · obtain ⟨rfl, rfl⟩ := hq
    rw [if_pos ⟨rfl, rfl⟩, if_pos (show (q.1, q.2) ∈ done ++ [q] by simp)]
    rfl
  · rw [if_neg hq]
    simp [List.mem_append, Prod.ext_iff, hq]

lemma pass1Step_cells_spec (b : Board) (done : List (Nat × Nat))
    (q : Nat × Nat) :
    (pass1Step b.width b.height ⟨p1Next b done, p1Cells b done⟩ q).cells =
      p1Cells b (done ++ [q]) := by
  have han : aliveNeighborsIn b.width b.height (p1Cells b done) q.1 q.2 =
      aliveNeighborsOf b q.1 q.2 := p1Cells_aliveNeighbors b done q.1 q.2
  have hAl : (p1Cells b done q.1 q.2).isAlive = (b.cells q.1 q.2).isAlive :=
    p1Cells_isAlive b done q.1 q.2
  show (getLivingNeighborsFx b.width b.height (p1Cells b done) q.1 q.2).2 =
    p1Cells b (done ++ [q])
  rw [glnFx_snd, han]
  by_cases hcond : (b.cells q.1 q.2).isAlive = false ∧
      (aliveNeighborsOf b q.1 q.2).length = 3
  · have hcondL : (p1Cells b done q.1 q.2).isAlive = false ∧
        (aliveNeighborsOf b q.1 q.2).length = 3 :=
      ⟨by rw [hAl]; exact hcond.1, hcond.2⟩
    rw [if_pos hcondL]
    have hwrite : ({ p1Cells b done q.1 q.2 with
        color := inheritColor (aliveNeighborsOf b q.1 q.2) } : Cell) =
        pass1CellSpec b q.1 q.2 := by
      unfold p1Cells pass1CellSpec countLiving
      by_cases hmem : (q.1, q.2) ∈ done
      · rw [if_pos hmem, if_pos hcond]
      · rw [if_neg hmem, if_pos hcond]
    rw [hwrite]
    funext a c
    unfold setGrid p1Cells
    by_cases hq : a = q.1 ∧ c = q.2
    · obtain ⟨rfl, rfl⟩ := hq
      rw [if_pos ⟨rfl, rfl⟩, if_pos (show (q.1, q.2) ∈ done ++ [q] by simp)]
    · rw [if_neg hq]
      simp [List.mem_append, Prod.ext_iff, hq]
  · have hcondL : ¬((p1Cells b done q.1 q.2).isAlive = false ∧
        (aliveNeighborsOf b q.1 q.2).length = 3) :=
      fun h => hcond ⟨by rw [← hAl]; exact h.1, h.2⟩
    rw [if_neg hcondL]
    have hspec : pass1CellSpec b q.1 q.2 = b.cells q.1 q.2 :=
      pass1CellSpec_of_not3 b q.1 q.2 (fun h => hcond ⟨h.1, h.2⟩)
    funext a c
    unfold p1Cells
    by_cases hmem : (a, c) ∈ done
    · rw [if_pos hmem, if_pos (show (a, c) ∈ done ++ [q] by simp [hmem])]
    · rw [if_neg hmem]
      by_cases hq : a = q.1 ∧ c = q.2
      · obtain ⟨rfl, rfl⟩ := hq
        rw [if_pos (show (q.1, q.2) ∈ done ++ [q] by simp)]
        exact hspec.symm
      · rw [if_neg (show ¬((a, c) ∈ done ++ [q]) by
          simp [List.mem_append, hmem, Prod.ext_iff, hq])]

/-- One step of the first pass takes the state after `done` to the state
after `done ++ [q]`. -/
lemma pass1Step_spec (b : Board) (done : List (Nat × Nat)) (q : Nat × Nat) :
    pass1Step b.width b.height ⟨p1Next b done, p1Cells b done⟩ q =
      ⟨p1Next b (done ++ [q]), p1Cells b (done ++ [q])⟩ := by
  apply P1State.ext
  · exact pass1Step_next_spec b done q
  · exact pass1Step_cells_spec b done q

/-- Folding the first pass over any coordinate list extends `done`. -/
lemma pass1_fold (b : Board) (L : List (Nat × Nat)) :
    ∀ done : List (Nat × Nat),
      L.foldl (pass1Step b.width b.height) ⟨p1Next b done, p1Cells b done⟩ =
        ⟨p1Next b (done ++ L), p1Cells b (done ++ L)⟩ := by
  induction L with
  | nil => intro done; simp
  | cons q L ih =>
    intro done
    rw [List.foldl_cons, pass1Step_spec, ih (done ++ [q]),
      List.append_assoc, List.singleton_append]

/-- The first pass of `update`, as run by the source, equals the
pointwise description computed against the pre-update board. -/
lemma pass1_eq (b : Board) :
    pass1 b = ⟨p1Next b (boardCoords b.width b.height),
               p1Cells b (boardCoords b.width b.height)⟩ := by
  have h0 : ({ next := b.next, cells := b.cells } : P1State) =
      ⟨p1Next b [], p1Cells b []⟩ := by
    apply P1State.ext
    · funext a c; simp [p1Next]
    · funext a c; simp [p1Cells]
  rw [pass1, h0, pass1_fold b _ [], List.nil_append]

lemma pass1_next_eq (b : Board) (x y : Nat) (hx : x < b.width)
    (hy : y < b.height) :
    (pass1 b).next x y = nextVal b x y := by
  rw [pass1_eq]
  show p1Next b (boardCoords b.width b.height) x y = nextVal b x y
  unfold p1Next
  rw [if_pos (mem_boardCoords.mpr ⟨hx, hy⟩)]

lemma pass1_cells_eq (b : Board) (x y : Nat) (hx : x < b.width)
    (hy : y < b.height) :
    (pass1 b).cells x y = pass1CellSpec b x y := by
  rw [pass1_eq]
  show p1Cells b (boardCoords b.width b.height) x y = pass1CellSpec b x y
  unfold p1Cells
  rw [if_pos (mem_boardCoords.mpr ⟨hx, hy⟩)]

/-- One step of the second pass takes the grid after `done` to the grid
after `done ++ [q]`, provided `q` has not been processed yet. -/
lemma pass2Step_spec (g : Grid) (n : Nat → Nat → Bool)
    (done : List (Nat × Nat)) (q : Nat × Nat) (hq : q ∉ done) :
    pass2Step n (p2Cells g n done) q = p2Cells g n (done ++ [q]) := by
  have hgq : p2Cells g n done q.1 q.2 = g q.1 q.2 := by
    unfold p2Cells
    rw [if_neg (by simpa using hq)]
  funext a c
  unfold pass2Step setGrid
  by_cases hac : a = q.1 ∧ c = q.2
  · obtain ⟨rfl, rfl⟩ := hac
    rw [if_pos ⟨rfl, rfl⟩, hgq]
    unfold p2Cells
    rw [if_pos (show (q.1, q.2) ∈ done ++ [q] by simp)]
  · rw [if_neg hac]
    unfold p2Cells
    by_cases hmem : (a, c) ∈ done
    · rw [if_pos hmem, if_pos (show (a, c) ∈ done ++ [q] by simp [hmem])]
    · rw [if_neg hmem, if_neg (show ¬((a, c) ∈ done ++ [q]) by
        simp [List.mem_append, hmem, Prod.ext_iff, hac])]

/-- Folding the second pass over a duplicate-free coordinate list
disjoint from `done` extends `done`. -/
lemma pass2_fold (g : Grid) (n : Nat → Nat → Bool) (L : List (Nat × Nat)) :
    ∀ done : List (Nat × Nat), (∀ p ∈ L, p ∉ done) → L.Nodup →
      L.foldl (pass2Step n) (p2Cells g n done) = p2Cells g n (done ++ L) := by
  induction L with
  | nil => intro done _ _; simp
  | cons q L ih =>
    intro done hdisj hnd
    rw [List.foldl_cons,
      pass2Step_spec g n done q (hdisj q (List.mem_cons_self q L)),
      ih (done ++ [q]) ?_ (List.nodup_cons.mp hnd).2,
      List.append_assoc, List.singleton_append]
    intro p hp
    simp only [List.mem_append, List.mem_singleton]
    rintro (h | rfl)
    · exact hdisj p (List.mem_cons_of_mem _ hp) h
    · exact (List.nodup_cons.mp hnd).1 hp

lemma update_width (b : Board) : b.update.width = b.width := rfl

lemma update_height (b : Board) : b.update.height = b.height := rfl

/-- The cell produced by `update` at any in-range position equals the
two pointwise pass descriptions, both computed against the pre-update
board. -/
lemma update_cells_eq (b : Board) (x y : Nat) (hx : x < b.width)
    (hy : y < b.height) :
    b.update.cells x y = pass2Cell (pass1CellSpec b x y) (nextVal b x y) := by
  show ((boardCoords b.width b.height).foldl (pass2Step (pass1 b).next)
    (pass1 b).cells) x y = _
  rw [pass1_eq]
  have h0 : p1Cells b (boardCoords b.width b.height) =
      p2Cells (p1Cells b (boardCoords b.width b.height))
        (p1Next b (boardCoords b.width b.height)) [] := by
    funext a c; simp [p2Cells]
  show ((boardCoords b.width b.height).foldl
      (pass2Step (p1Next b (boardCoords b.width b.height)))
      (p1Cells b (boardCoords b.width b.height))) x y = _
  rw [h0, pass2_fold _ _ _ [] (by simp) (boardCoords_nodup _ _),
    List.nil_append]
  unfold p2Cells
  rw [if_pos (mem_boardCoords.mpr ⟨hx, hy⟩)]
  unfold p1Cells p1Next
  rw [if_pos (mem_boardCoords.mpr ⟨hx, hy⟩),
    if_pos (mem_boardCoords.mpr ⟨hx, hy⟩)]

/-- The transitioned cell's alive status is exactly the staged
decision. -/
lemma pass2Cell_isAlive (c : Cell) (n : Bool) :
    (pass2Cell c n).isAlive = n := by
  cases hA : c.isAlive <;> cases n <;> simp [pass2Cell, hA, Cell.kill]
  split <;> simp [hA]

/-- The alive status after `update` is the staged decision computed
against the pre-update board. -/
lemma update_isAlive (b : Board) (x y : Nat) (hx : x < b.width)
    (hy : y < b.height) :
    (b.update.cells x y).isAlive = nextVal b x y := by
  rw [update_cells_eq b x y hx hy, pass2Cell_isAlive]

/-- The living-neighbor count is a function of the alive statuses only. -/
lemma countLiving_eq_countAliveB (b : Board) (x y : Nat) :
    countLiving b x y =
      countAliveB b.width b.height (fun p q => (b.cells p q).isAlive) x y := by
  unfold countLiving aliveNeighborsOf aliveNeighborsIn countAliveB
  rw [List.filter_map, List.length_map]
  rfl

/-- The staged decision is a function of the alive statuses only. -/
lemma nextVal_eq_boolStep (b : Board) (x y : Nat) :
    nextVal b x y =
      boolStep b.width b.height (fun p q => (b.cells p q).isAlive) x y := by
  unfold nextVal boolStep
  rw [countLiving_eq_countAliveB]

lemma countAliveB_congr (width height : Nat) (a1 a2 : Nat → Nat → Bool)
    (x y : Nat) (hx : x < width) (hy : y < height)
    (h : ∀ p q, p < width → q < height → a1 p q = a2 p q) :
    countAliveB width height a1 x y = countAliveB width height a2 x y := by
  unfold countAliveB
  congr 1
  apply List.filter_congr
  intro p hp
  have hb := neighborPositions_bounds hx hy p hp
  rw [h p.1 p.2 hb.1 hb.2]

lemma boolStep_congr (width height : Nat) (a1 a2 : Nat → Nat → Bool)
    (x y : Nat) (hx : x < width) (hy : y < height)
    (h : ∀ p q, p < width → q < height → a1 p q = a2 p q) :
    boolStep width height a1 x y = boolStep width height a2 x y := by
  unfold boolStep
  rw [countAliveB_congr width height a1 a2 x y hx hy h, h x y hx hy]

/-- On a board whose in-range cells are all dead, every in-range
living-neighbor count is zero. -/
lemma countLiving_of_all_dead (b : Board)
    (h : ∀ p q, p < b.width → q < b.height → (b.cells p q).isAlive = false)
    (x y : Nat) (hx : x < b.width) (hy : y < b.height) :
    countLiving b x y = 0 := by
  unfold countLiving aliveNeighborsOf aliveNeighborsIn
  rw [List.length_eq_zero, List.filter_eq_nil_iff]
  intro c hc
  simp only [List.mem_map] at hc
  obtain ⟨p, hp, rfl⟩ := hc
  have hb := neighborPositions_bounds hx hy p hp
  simp [h p.1 p.2 hb.1 hb.2]

/-- A dead cell whose staged decision is `false` is returned unchanged
by `update`. -/
lemma update_cells_of_dead_zero (b : Board) (x y : Nat) (hx : x < b.width)
    (hy : y < b.height) (hdead : (b.cells x y).isAlive = false)
    (hcl : countLiving b x y = 0) :
    b.update.cells x y = b.cells x y := by
  rw [update_cells_eq b x y hx hy]
  have hnv : nextVal b x y = false := by simp [nextVal, hdead, hcl]
  have hp1 : pass1CellSpec b x y = b.cells x y :=
    pass1CellSpec_of_not3 b x y (by simp [hcl])
  rw [hnv, hp1]
  simp [pass2Cell, hdead]

/-- The bounds-checked accessor succeeds on every list of in-range
positions. -/
lemma collectCells_eq (b : Board) (ps : List (Nat × Nat))
    (h : ∀ p ∈ ps, p.1 < b.width ∧ p.2 < b.height) :
    collectCells b ps = some (ps.map (fun p => b.cells p.1 p.2)) := by
  induction ps with
  | nil => rfl
  | cons p ps ih =>
    have hp := h p (List.mem_cons_self p ps)
    unfold collectCells Board.cellAt
    rw [if_pos hp, ih (fun q hq => h q (List.mem_cons_of_mem _ hq))]
    rfl

/-- Boolean equality on naturals agrees with the decided proposition. -/
lemma beq_eq_decide (a b : Nat) : (a == b) = decide (a = b) := by
  rw [Bool.eq_iff_iff]
  simp

/-! ### Claim theorems -/

/-- C1: for every board and every in-range cell `(x, y)`, the staged
next-generation status computed by the first pass of `update` (threaded
through the mutating loop) equals the standard Game of Life rule
evaluated against the pre-update grid only: an alive cell stays alive
iff its living-neighbor count is 2 or 3, and a dead cell becomes alive
iff its living-neighbor count is exactly 3. -/
theorem conway_C1_pass1_standard_rule (b : Board) (x y : Nat)
    (hx : x < b.width) (hy : y < b.height) :
    (pass1 b).next x y =
      lifeRuleSpec (b.cells x y).isAlive (countLiving b x y) := by
  rw [pass1_next_eq b x y hx hy]
  unfold nextVal lifeRuleSpec
  cases hA : (b.cells x y).isAlive <;> simp [hA, beq_eq_decide]

/-- Witness for C1 at a concrete board. -/
theorem conway_C1_witness :
    (pass1 (Board.make 1 1)).next 0 0 =
      lifeRuleSpec ((Board.make 1 1).cells 0 0).isAlive
        (countLiving (Board.make 1 1) 0 0) :=
  conway_C1_pass1_standard_rule (Board.make 1 1) 0 0 (by decide) (by decide)

/-- C4 (amended): the first pass of `update` never changes any cell's
alive status or maturity, and leaves every cell entirely unchanged
except a dead cell with exactly 3 living neighbors, whose color it
overwrites in place. -/
theorem conway_C4_first_pass_effects (b : Board) (x y : Nat)
    (hx : x < b.width) (hy : y < b.height) :
    ((pass1 b).cells x y).isAlive = (b.cells x y).isAlive ∧
    ((pass1 b).cells x y).maturity = (b.cells x y).maturity ∧
    ((b.cells x y).isAlive = true ∨ countLiving b x y ≠ 3 →
      (pass1 b).cells x y = b.cells x y) ∧
    ((b.cells x y).isAlive = false → countLiving b x y = 3 →
      (pass1 b).cells x y =
        { b.cells x y with
          color := inheritColor (aliveNeighborsOf b x y) }) := by
  rw [pass1_cells_eq b x y hx hy]
  refine ⟨pass1CellSpec_isAlive b x y, pass1CellSpec_maturity b x y, ?_, ?_⟩
  · rintro (h | h)
    · exact pass1CellSpec_of_alive b x y h
    · exact pass1CellSpec_of_not3 b x y (fun hc => h hc.2)
  · intro hdead hcl
    unfold pass1CellSpec
    rw [if_pos ⟨hdead, hcl⟩]

/-- Witness for the amended C4 at a concrete board. -/
theorem conway_C4_witness :
    ((pass1 (Board.make 1 1)).cells 0 0).isAlive =
        ((Board.make 1 1).cells 0 0).isAlive ∧
      ((pass1 (Board.make 1 1)).cells 0 0).maturity =
        ((Board.make 1 1).cells 0 0).maturity ∧
      (((Board.make 1 1).cells 0 0).isAlive = true ∨
          countLiving (Board.make 1 1) 0 0 ≠ 3 →
        (pass1 (Board.make 1 1)).cells 0 0 = (Board.make 1 1).cells 0 0) ∧
      (((Board.make 1 1).cells 0 0).isAlive = false →
        countLiving (Board.make 1 1) 0 0 = 3 →
        (pass1 (Board.make 1 1)).cells 0 0 =
          { (Board.make 1 1).cells 0 0 with
            color := inheritColor (aliveNeighborsOf (Board.make 1 1) 0 0) }) :=
  conway_C4_first_pass_effects (Board.make 1 1) 0 0 (by decide) (by decide)

/-- Counterexample to C4 as stated: on `cornerBoard` the first pass of
`update` mutates the current-generation cell `(1, 1)` (its color is
overwritten in place before the pass over all cells completes). -/
theorem conway_C4_counterexample :
    ((pass1 cornerBoard).cells 1 1).color ≠ (cornerBoard.cells 1 1).color := by
  decide

/-- C5: `toggle requestedColor` kills an alive cell of the same color
(resetting maturity), recolors an alive cell of a different color
(leaving maturity untouched), and revives a dead cell with the requested
color; the revived cell's maturity is `0.1` because a dead cell's
maturity is always `0.1` (the invariant of C6, taken as hypothesis in
the dead branch). -/
theorem conway_C5_toggle (c : Cell) (color : JsStr) :
    (c.isAlive = false → c.maturity = 1/10 →
      (c.toggle color).isAlive = true ∧ (c.toggle color).color = color ∧
        (c.toggle color).maturity = 1/10) ∧
    (c.isAlive = true → c.color = color →
      (c.toggle color).isAlive = false ∧ (c.toggle color).maturity = 1/10) ∧
    (c.isAlive = true → c.color ≠ color →
      (c.toggle color).isAlive = true ∧ (c.toggle color).color = color ∧
        (c.toggle color).maturity = c.maturity) := by
  refine ⟨?_, ?_, ?_⟩ <;> intro h1 h2 <;>
    simp [Cell.toggle, h1, h2, Cell.kill]

/-- Witness for C5: toggling a fresh dead cell revives it with the
requested color and maturity `0.1`. -/
theorem conway_C5_witness :
    ((Cell.make 0 0 none).toggle ['#', 'f', 'f', '0', '0', '0', '0']).isAlive
        = true ∧
      ((Cell.make 0 0 none).toggle
          ['#', 'f', 'f', '0', '0', '0', '0']).color =
        ['#', 'f', 'f', '0', '0', '0', '0'] ∧
      ((Cell.make 0 0 none).toggle
          ['#', 'f', 'f', '0', '0', '0', '0']).maturity = 1/10 :=
  (conway_C5_toggle (Cell.make 0 0 none)
    ['#', 'f', 'f', '0', '0', '0', '0']).1 rfl rfl

/-- C8: `update` applied to a board whose cells are all dead leaves
every cell dead, and `clear` followed by `update` yields an all-dead
board whose cells are unchanged by the `update`. -/
theorem conway_C8_all_dead (b : Board) :
    ((∀ p q, p < b.width → q < b.height → (b.cells p q).isAlive = false) →
      ∀ x y, x < b.width → y < b.height →
        (b.update.cells x y).isAlive = false) ∧
    (∀ x y, x < b.width → y < b.height →
      b.clear.update.cells x y = b.clear.cells x y ∧
        (b.clear.update.cells x y).isAlive = false) := by
  constructor
  · intro h x y hx hy
    rw [update_isAlive b x y hx hy]
    simp [nextVal, h x y hx hy, countLiving_of_all_dead b h x y hx hy]
  · intro x y hx hy
    have hdead : ∀ p q, p < b.clear.width → q < b.clear.height →
        (b.clear.cells p q).isAlive = false := by
      intro p q hp hq
      show (if p < b.width ∧ q < b.height then (b.cells p q).kill
        else b.cells p q).isAlive = false
      rw [if_pos ⟨hp, hq⟩]
      rfl
    refine ⟨?_, ?_⟩
    · exact update_cells_of_dead_zero b.clear x y hx hy (hdead x y hx hy)
        (countLiving_of_all_dead b.clear hdead x y hx hy)
    · rw [update_isAlive b.clear x y hx hy]
      simp [nextVal, hdead x y hx hy,
        countLiving_of_all_dead b.clear hdead x y hx hy]

/-- Witness for C8 at a concrete board. -/
theorem conway_C8_witness :
    ((Board.make 1 1).update.cells 0 0).isAlive = false ∧
      (Board.make 1 1).clear.update.cells 0 0 =
        (Board.make 1 1).clear.cells 0 0 :=
  ⟨(conway_C8_all_dead (Board.make 1 1)).1 (fun _ _ _ _ => rfl) 0 0
      (by decide) (by decide),
   ((conway_C8_all_dead (Board.make 1 1)).2 0 0 (by decide) (by decide)).1⟩

/-- C9: for every in-range cell the neighbor-counting touches only
in-range positions (the bounds-checked access always succeeds) and
returns a count in `[0, 8]`; on a 1×1 board the only cell's count is 0
and the cell is dead after every `update`. -/
theorem conway_C9_neighbor_safety (b : Board) :
    (∀ x y, x < b.width → y < b.height →
      (∀ p ∈ neighborPositions b.width b.height x y,
        p.1 < b.width ∧ p.2 < b.height) ∧
      countLivingChecked b x y = some (countLiving b x y) ∧
      countLiving b x y ≤ 8) ∧
    (b.width = 1 → b.height = 1 →
      countLiving b 0 0 = 0 ∧ (b.update.cells 0 0).isAlive = false) := by
  constructor
  · intro x y hx hy
    refine ⟨neighborPositions_bounds hx hy, ?_, ?_⟩
    · unfold countLivingChecked
      rw [collectCells_eq b _ (neighborPositions_bounds hx hy)]
      rfl
    · calc countLiving b x y
          ≤ (neighborPositions b.width b.height x y).length := by
            unfold countLiving aliveNeighborsOf aliveNeighborsIn
            exact le_trans (List.length_filter_le _ _)
              (le_of_eq (List.length_map _ _))
        _ ≤ 8 := neighborPositions_length_le _ _ _ _
  · intro hW hH
    have hnp : neighborPositions b.width b.height 0 0 = [] := by
      rw [hW, hH]
      decide
    have hcl : countLiving b 0 0 = 0 := by
      unfold countLiving aliveNeighborsOf aliveNeighborsIn
      rw [hnp]
      rfl
    refine ⟨hcl, ?_⟩
    rw [update_isAlive b 0 0 (by omega) (by omega)]
    simp [nextVal, hcl]

/-- Witness for C9 at a concrete board. -/
theorem conway_C9_witness :
    countLiving (Board.make 1 1) 0 0 ≤ 8 ∧
      countLiving (Board.make 1 1) 0 0 = 0 :=
  ⟨((conway_C9_neighbor_safety (Board.make 1 1)).1 0 0
      (by decide) (by decide)).2.2,
   ((conway_C9_neighbor_safety (Board.make 1 1)).2 rfl rfl).1⟩

/-- C10: `clickCell` at any out-of-bounds coordinate signals the error
condition (the thrown access, modelled as `none`) and produces no
mutated board — in particular it never clamps or wraps onto an in-range
cell. -/
theorem conway_C10_clickCell_oob (b : Board) (x y : Int) (color : JsStr)
    (h : x < 0 ∨ (b.width : Int) ≤ x ∨ y < 0 ∨ (b.height : Int) ≤ y) :
    b.clickCell x y color = none := by
  unfold Board.clickCell
  rw [if_neg]
  rintro ⟨h1, h2, h3, h4⟩
  rcases h with h | h | h | h <;> omega

/-- Witness for C10 at a concrete board and coordinate. -/
theorem conway_C10_witness :
    (Board.make 2 2).clickCell (-1) 0 defaultColor = none :=
  conway_C10_clickCell_oob (Board.make 2 2) (-1) 0 defaultColor
    (Or.inl (by decide))

/-- C2: a dead cell born by `update` (it has exactly 3 living neighbors
in the pre-update grid, enumerated in the source's clockwise order —
left, top-left, top, top-right, right, bottom-right, bottom,
bottom-left) gets a color whose red channel is the red channel of the
first living neighbor, whose green channel is the green channel of the
second, and whose blue channel is the blue channel of the third
(channels as positions 1-2, 3-4, 5-6 of a 7-character `#RRGGBB`
color). -/
theorem conway_C2_color_inheritance (b : Board) (x y : Nat)
    (hx : x < b.width) (hy : y < b.height)
    (hdead : (b.cells x y).isAlive = false)
    (n0 n1 n2 : Cell) (han : aliveNeighborsOf b x y = [n0, n1, n2])
    (h0 : n0.color.length = 7) (h1 : n1.color.length = 7)
    (h2 : n2.color.length = 7) :
    jsSubstr (b.update.cells x y).color 1 2 = jsSubstr n0.color 1 2 ∧
    jsSubstr (b.update.cells x y).color 3 2 = jsSubstr n1.color 3 2 ∧
    jsSubstr (b.update.cells x y).color 5 2 = jsSubstr n2.color 5 2 := by
  have hcl : countLiving b x y = 3 := by
    unfold countLiving
    rw [han]
    rfl
  have hnv : nextVal b x y = true := by simp [nextVal, hdead, hcl]
  have hA : (pass1CellSpec b x y).isAlive = false := by
    rw [pass1CellSpec_isAlive]; exact hdead
  have hcolor : (b.update.cells x y).color = inheritColor [n0, n1, n2] := by
    rw [update_cells_eq b x y hx hy, hnv]
    simp only [pass2Cell, hA, Bool.false_and, Bool.not_false, Bool.true_and,
      if_false, if_true, Bool.and_true]
    show (pass1CellSpec b x y).color = inheritColor [n0, n1, n2]
    unfold pass1CellSpec
    rw [if_pos ⟨hdead, hcl⟩, han]
  have hinh : inheritColor [n0, n1, n2] =
      '#' :: (jsSubstr n0.color 1 2 ++
        (jsSubstr n1.color 3 2 ++ (jsSubstr n2.color 5 2 ++ []))) := rfl
  have l0 : (jsSubstr n0.color 1 2).length = 2 := by
    simp [jsSubstr, h0]
  have l1 : (jsSubstr n1.color 3 2).length = 2 := by
    simp [jsSubstr, h1]
  have l2 : (jsSubstr n2.color 5 2).length = 2 := by
    simp [jsSubstr, h2]
  refine ⟨?_, ?_, ?_⟩
  · rw [hcolor, hinh]
    show List.take 2 (jsSubstr n0.color 1 2 ++
      (jsSubstr n1.color 3 2 ++ (jsSubstr n2.color 5 2 ++ []))) =
      jsSubstr n0.color 1 2
    exact List.take_left' l0
  · rw [hcolor, hinh]
    show List.take 2 (List.drop 2 (jsSubstr n0.color 1 2 ++
      (jsSubstr n1.color 3 2 ++ (jsSubstr n2.color 5 2 ++ [])))) =
      jsSubstr n1.color 3 2
    rw [List.drop_left' l0]
    exact List.take_left' l1
  · rw [hcolor, hinh]
    show List.take 2 (List.drop 4 (jsSubstr n0.color 1 2 ++
      (jsSubstr n1.color 3 2 ++ (jsSubstr n2.color 5 2 ++ [])))) =
      jsSubstr n2.color 5 2
    rw [← List.append_assoc, List.drop_left'
      (by rw [List.length_append, l0, l1]), List.append_nil]
    exact List.take_of_length_le (le_of_eq l2)

/-- Witness for C2: on `cornerBoard` the dead corner `(1, 1)` is born
with channels taken from its three living neighbors in clockwise
order. -/
theorem conway_C2_witness :
    jsSubstr (cornerBoard.update.cells 1 1).color 1 2 =
        jsSubstr ((cornerBoard.cells 0 1).color) 1 2 ∧
      jsSubstr (cornerBoard.update.cells 1 1).color 3 2 =
        jsSubstr ((cornerBoard.cells 0 0).color) 3 2 ∧
      jsSubstr (cornerBoard.update.cells 1 1).color 5 2 =
        jsSubstr ((cornerBoard.cells 1 0).color) 5 2 :=
  conway_C2_color_inheritance cornerBoard 1 1 (by decide) (by decide)
    (by decide) (cornerBoard.cells 0 1) (cornerBoard.cells 0 0)
    (cornerBoard.cells 1 0) rfl (by decide) (by decide) (by decide)

lemma setGrid_same (g : Grid) (x y : Nat) (c : Cell) :
    setGrid g x y c x y = c := by
  simp [setGrid]

/-- C6: in every board reachable from a fresh construction by `update`,
`clear`, click-toggles and direct kills, every in-range dead cell's
maturity is exactly `0.1` at all times. -/
theorem conway_C6_dead_maturity (b : Board) (hb : Reachable b) :
    ∀ x y, x < b.width → y < b.height →
      (b.cells x y).isAlive = false → (b.cells x y).maturity = 1/10 := by
  induction hb with
  | init width height => intro x y _ _ _; rfl
  | @update b hb ih =>
    intro x y hx hy hdead
    have hx' : x < b.width := hx
    have hy' : y < b.height := hy
    rw [update_cells_eq b x y hx' hy'] at hdead ⊢
    by_cases hN : nextVal b x y = true
    · rw [hN] at hdead ⊢
      by_cases hA : (pass1CellSpec b x y).isAlive = true
      · simp only [pass2Cell, hA, Bool.true_and, if_true] at hdead
        split at hdead <;> simp [hA] at hdead
      · rw [Bool.not_eq_true] at hA
        simp [pass2Cell, hA] at hdead
    · rw [Bool.not_eq_true] at hN
      rw [hN] at hdead ⊢
      by_cases hA : (pass1CellSpec b x y).isAlive = true
      · simp [pass2Cell, hA, Cell.kill]
      · rw [Bool.not_eq_true] at hA
        simp only [pass2Cell, hA, Bool.false_and, Bool.and_false, if_false,
          Bool.not_false, Bool.and_self, Bool.false_eq_true]
        rw [pass1CellSpec_maturity]
        exact ih x y hx' hy' (by rw [← pass1CellSpec_isAlive b x y]; exact hA)
  | @clear b hb ih =>
    intro x y hx hy _
    show (if x < b.width ∧ y < b.height then (b.cells x y).kill
      else b.cells x y).maturity = 1/10
    rw [if_pos ⟨hx, hy⟩]
    rfl
  | @click b xi yi col c hb hclick ih =>
    intro x y hx hy hdead
    unfold Board.clickCell at hclick
    split at hclick
    · rw [Option.some.injEq] at hclick
      subst hclick
      have hx' : x < b.width := hx
      have hy' : y < b.height := hy
      simp only [setGrid] at hdead ⊢
      by_cases hpt : x = xi.toNat ∧ y = yi.toNat
      · rw [if_pos hpt] at hdead ⊢
        by_cases hA : (b.cells xi.toNat yi.toNat).isAlive = true
        · by_cases hcol : (b.cells xi.toNat yi.toNat).color = col
          · simp [Cell.toggle, hA, hcol, Cell.kill]
          · simp [Cell.toggle, hA, hcol] at hdead
        · rw [Bool.not_eq_true] at hA
          simp [Cell.toggle, hA] at hdead
      · rw [if_neg hpt] at hdead ⊢
        exact ih x y hx' hy' hdead
    · exact absurd hclick (by simp)
  | @killAt b xk yk hb ih =>
    intro x y hx hy hdead
    have hx' : x < b.width := hx
    have hy' : y < b.height := hy
    simp only [setGrid] at hdead ⊢
    by_cases hpt : x = xk ∧ y = yk
    · rw [if_pos hpt]
      rfl
    · rw [if_neg hpt] at hdead ⊢
      exact ih x y hx' hy' hdead

/-- Witness for C6 at a freshly constructed board. -/
theorem conway_C6_witness :
    ((Board.make 1 1).cells 0 0).maturity = 1/10 :=
  conway_C6_dead_maturity (Board.make 1 1) (Reachable.init 1 1) 0 0
    (by decide) (by decide) rfl

/-- C7: on any 5×5 board whose alive set is exactly the horizontal
blinker `{(1,2),(2,2),(3,2)}` — whatever the cells' colors and
maturities — one `update` makes the alive set exactly the vertical
blinker `{(2,1),(2,2),(2,3)}` and a second `update` restores the
horizontal blinker. -/
theorem conway_C7_blinker (b : Board) (hW : b.width = 5) (hH : b.height = 5)
    (hseed : ∀ x y, x < 5 → y < 5 →
      ((b.cells x y).isAlive = true ↔ (x, y) ∈ blinkerH)) :
    (∀ x y, x < 5 → y < 5 →
      ((b.update.cells x y).isAlive = true ↔ (x, y) ∈ blinkerV)) ∧
    (∀ x y, x < 5 → y < 5 →
      ((b.update.update.cells x y).isAlive = true ↔ (x, y) ∈ blinkerH)) := by
  have hstep1 : ∀ x, x < 5 → ∀ y, y < 5 →
      boolStep 5 5 blinkerHMap x y = blinkerVMap x y := by decide
  have hstep2 : ∀ x, x < 5 → ∀ y, y < 5 →
      boolStep 5 5 blinkerVMap x y = blinkerHMap x y := by decide
  have hseedEq : ∀ p q, p < 5 → q < 5 →
      (b.cells p q).isAlive = blinkerHMap p q := by
    intro p q hp hq
    rw [Bool.eq_iff_iff, hseed p q hp hq]
    simp [blinkerHMap]
  have key1 : ∀ x y, x < b.width → y < b.height →
      (b.update.cells x y).isAlive = blinkerVMap x y := by
    intro x y hx hy
    have hx5 : x < 5 := by rw [← hW]; exact hx
    have hy5 : y < 5 := by rw [← hH]; exact hy
    rw [update_isAlive b x y hx hy, nextVal_eq_boolStep, hW, hH,
      boolStep_congr 5 5 _ blinkerHMap x y hx5 hy5 hseedEq]
    exact hstep1 x hx5 y hy5
  have key2 : ∀ x y, x < b.update.width → y < b.update.height →
      (b.update.update.cells x y).isAlive = blinkerHMap x y := by
    intro x y hx hy
    have hx5 : x < 5 := by rw [← hW]; exact hx
    have hy5 : y < 5 := by rw [← hH]; exact hy
    rw [update_isAlive b.update x y hx hy, nextVal_eq_boolStep,
      update_width, update_height, hW, hH,
      boolStep_congr 5 5 _ blinkerVMap x y hx5 hy5 (fun p q hp hq =>
        key1 p q (by rw [hW]; exact hp) (by rw [hH]; exact hq))]
    exact hstep2 x hx5 y hy5
  constructor
  · intro x y hx hy
    rw [key1 x y (by rw [hW]; exact hx) (by rw [hH]; exact hy)]
    simp [blinkerVMap]
  · intro x y hx hy
    rw [key2 x y (by rw [update_width, hW]; exact hx)
      (by rw [update_height, hH]; exact hy)]
    simp [blinkerHMap]

/-- Witness for C7 on the concrete `blinkerBoard`. -/
theorem conway_C7_witness :
    ((blinkerBoard.update.cells 2 1).isAlive = true ↔
        ((2, 1) : Nat × Nat) ∈ blinkerV) ∧
      ((blinkerBoard.update.update.cells 1 2).isAlive = true ↔
        ((1, 2) : Nat × Nat) ∈ blinkerH) :=
  ⟨(conway_C7_blinker blinkerBoard rfl rfl (fun x y hx hy =>
      (by decide : ∀ x, x < 5 → ∀ y, y < 5 →
        ((blinkerBoard.cells x y).isAlive = true ↔ (x, y) ∈ blinkerH))
        x hx y hy)).1 2 1 (by decide) (by decide),
   (conway_C7_blinker blinkerBoard rfl rfl (fun x y hx hy =>
      (by decide : ∀ x, x < 5 → ∀ y, y < 5 →
        ((blinkerBoard.cells x y).isAlive = true ↔ (x, y) ∈ blinkerH))
        x hx y hy)).2 1 2 (by decide) (by decide)⟩

end ConwayLife
